import Mathlib

/-
Verification of the Canvas SIS Prep Tool core (src/main.py):
data model, repository operations, persistence round trip and legacy
migration, CSV import/export engines, and Canvas three-file generation.

Python dicts are embedded as association lists in insertion order
(Python >= 3.7 dicts preserve insertion order); `d[k] = v` replaces the
value in place when the key exists and appends otherwise; `d.values()`
iterates in that stored order.  Strings are Lean `String`s; Python
truthiness of a string is `s != ""`, of `None` it is false.
-/

/-- A Python dict with string keys, in insertion order. -/
abbrev Dict (α : Type) : Type := List (String × α)

/-- `d.get(k)` / `d[k]`: value at the first (unique) occurrence of `k`. -/
def dictFind {α : Type} (d : Dict α) (k : String) : Option α :=
  match d with
  | [] => none
  | (k', v) :: rest => if k' = k then some v else dictFind rest k

/-- `k in d`. -/
def dictContains {α : Type} (d : Dict α) (k : String) : Bool :=
  (dictFind d k).isSome

/-- Python `d[k] = v`: replace in place if present, append otherwise. -/
def dictInsert {α : Type} (d : Dict α) (k : String) (v : α) : Dict α :=
  match d with
  | [] => [(k, v)]
  | (k', v') :: rest =>
      if k' = k then (k, v) :: rest else (k', v') :: dictInsert rest k v

/-- Python `del d[k]`. -/
def dictErase {α : Type} (d : Dict α) (k : String) : Dict α :=
  match d with
  | [] => []
  | (k', v') :: rest => if k' = k then rest else (k', v') :: dictErase rest k

/-- `d.values()`, in insertion order. -/
def dictValues {α : Type} (d : Dict α) : List α := d.map Prod.snd

-- ## Entity model (src/main.py classes)

/-- `class ProgramArea`. -/
structure ProgramArea where
  name : String
deriving DecidableEq

/-- `class Person`. -/
structure Person where
  name : String
  user_id : String
  program_area_name : String
deriving DecidableEq

/-- `class Course`: `__init__` stores `course_id_portion.upper()`. -/
structure Course where
  short_name : String
  long_name : String
  course_id_portion : String
  program_area_name : String
deriving DecidableEq

/-- Python `str.upper()`: upper-case character by character
(`String.toUpper` is `String.map Char.toUpper`; spelled out over the
character list so that it evaluates in the kernel). -/
def pyUpper (s : String) : String := ⟨s.data.map Char.toUpper⟩

/-- `Course.__init__(short_name, long_name, course_id_portion, program_area_name='')`:
the stored `course_id_portion` is the upper-cased form of the argument. -/
def Course.make (short_name long_name course_id_portion program_area_name : String) :
    Course :=
  ⟨short_name, long_name, pyUpper course_id_portion, program_area_name⟩

/-- `class Term`. -/
structure Term where
  term_id : String
  name : String
  short_code : String
deriving DecidableEq

/-- `class Account`. -/
structure Account where
  account_id : String
deriving DecidableEq

/-- `class Enrollment`. -/
structure Enrollment where
  user_id : String
  role : String
  status : String
deriving DecidableEq

/-- `class Section` as built by `Section.__init__`: the attributes assigned
there, and only those.  `term_name` is an `Option` because
`Section.from_dict` passes `data.get('term_name')`, which is `None` when
the persisted record has no such key.  `__init__` never assigns a
`term_id` attribute, so a `Section` object has no such field. -/
structure Sect where
  course_id_portion : String
  term_name : Option String
  account_id : String
  section_number : String
  status : String
  start_date : String
  end_date : String
  enrollments : List Enrollment
deriving DecidableEq

/-- `Section.add_enrollment(self, enrollment)`: a bare
`self.enrollments.append(enrollment)` — no check of any kind. -/
def Sect.add_enrollment (s : Sect) (e : Enrollment) : Sect :=
  { s with enrollments := s.enrollments ++ [e] }

-- ## DataManager state

/-- The collections held by `DataManager`. -/
structure DataManager where
  people : Dict Person
  courses : Dict Course
  terms : Dict Term
  accounts : Dict Account
  program_areas : Dict ProgramArea
  enrollment_roles : Dict String
  sections : List Sect
deriving DecidableEq

-- ## Canvas three-file generation (DataManager.generate_csv_files)

/-- A row of the generated courses CSV, fields in header order
`course_id, short_name, long_name, account_id, term_id, status,
start_date, end_date`. -/
structure CoursesRow where
  course_id : String
  short_name : String
  long_name : String
  account_id : String
  term_id : String
  status : String
  start_date : String
  end_date : String
deriving DecidableEq

/-- A row of the generated sections CSV. -/
structure SectionsRow where
  section_id : String
  course_id : String
  name : String
  status : String
  start_date : String
  end_date : String
deriving DecidableEq

/-- A row of the generated enrollments CSV. -/
structure EnrollmentsRow where
  course_id : String
  section_id : String
  user_id : String
  role : String
  status : String
deriving DecidableEq

/-- The per-section loop body of `DataManager.generate_csv_files`:
resolve the Course by `section.course_id_portion` and the Term by
`section.term_name` (`self.terms.get(None)` is `None`), skip the section
when either lookup fails, and otherwise append one courses row, one
sections row, and one enrollments row per enrollment, the role run
through `self.enrollment_roles.get(enrollment.role, enrollment.role)`. -/
def generateStep (dm : DataManager)
    (acc : List CoursesRow × List SectionsRow × List EnrollmentsRow)
    (sec : Sect) : List CoursesRow × List SectionsRow × List EnrollmentsRow :=
  match dictFind dm.courses sec.course_id_portion,
        sec.term_name.bind (dictFind dm.terms) with
  | some course_obj, some term_obj =>
      let course_id :=
        sec.course_id_portion ++ "-" ++ term_obj.short_code ++ "-" ++ sec.section_number
      let section_id :=
        term_obj.short_code ++ "-" ++ sec.course_id_portion ++ "-" ++ sec.section_number
      let long_name_with_section := course_obj.long_name ++ "-" ++ sec.section_number
      (acc.1 ++ [⟨course_id, course_obj.short_name, long_name_with_section,
                  sec.account_id, term_obj.term_id, sec.status,
                  sec.start_date, sec.end_date⟩],
       acc.2.1 ++ [⟨section_id, course_id, long_name_with_section,
                    sec.status, sec.start_date, sec.end_date⟩],
       acc.2.2 ++ sec.enrollments.map (fun e =>
         ⟨course_id, section_id, e.user_id,
          (dictFind dm.enrollment_roles e.role).getD e.role, e.status⟩))
  | _, _ => acc

/-- `DataManager.generate_csv_files` up to file IO: the guard
`if not self.sections: return "No sections created..."` followed by the
accumulation loop over `self.sections`. -/
def generate_csv_files (dm : DataManager) :
    Except String (List CoursesRow × List SectionsRow × List EnrollmentsRow) :=
  if dm.sections.isEmpty then
    Except.error "No sections created. Cannot generate CSV files."
  else
    Except.ok (dm.sections.foldl (generateStep dm) ([], [], []))

-- Closed-form characterization of the generation loop, shared by the
-- claims about generate_csv_files.

/-- The courses row a single section contributes, if any. -/
def coursesRowFor (dm : DataManager) (sec : Sect) : Option CoursesRow :=
  match dictFind dm.courses sec.course_id_portion,
        sec.term_name.bind (dictFind dm.terms) with
  | some c, some t =>
      some ⟨sec.course_id_portion ++ "-" ++ t.short_code ++ "-" ++ sec.section_number,
            c.short_name, c.long_name ++ "-" ++ sec.section_number,
            sec.account_id, t.term_id, sec.status, sec.start_date, sec.end_date⟩
  | _, _ => none

/-- The sections row a single section contributes, if any. -/
def sectionsRowFor (dm : DataManager) (sec : Sect) : Option SectionsRow :=
  match dictFind dm.courses sec.course_id_portion,
        sec.term_name.bind (dictFind dm.terms) with
  | some c, some t =>
      some ⟨t.short_code ++ "-" ++ sec.course_id_portion ++ "-" ++ sec.section_number,
            sec.course_id_portion ++ "-" ++ t.short_code ++ "-" ++ sec.section_number,
            c.long_name ++ "-" ++ sec.section_number,
            sec.status, sec.start_date, sec.end_date⟩
  | _, _ => none

/-- The enrollments rows a single section contributes. -/
def enrollmentsRowsFor (dm : DataManager) (sec : Sect) : List EnrollmentsRow :=
  match dictFind dm.courses sec.course_id_portion,
        sec.term_name.bind (dictFind dm.terms) with
  | some _, some t =>
      sec.enrollments.map (fun e =>
        ⟨sec.course_id_portion ++ "-" ++ t.short_code ++ "-" ++ sec.section_number,
         t.short_code ++ "-" ++ sec.course_id_portion ++ "-" ++ sec.section_number,
         e.user_id, (dictFind dm.enrollment_roles e.role).getD e.role, e.status⟩)
  | _, _ => []

theorem generateStep_eq (dm : DataManager)
    (acc : List CoursesRow × List SectionsRow × List EnrollmentsRow) (sec : Sect) :
    generateStep dm acc sec =
      (acc.1 ++ (coursesRowFor dm sec).toList,
       acc.2.1 ++ (sectionsRowFor dm sec).toList,
       acc.2.2 ++ enrollmentsRowsFor dm sec) := by
  unfold generateStep coursesRowFor sectionsRowFor enrollmentsRowsFor
  rcases h1 : dictFind dm.courses sec.course_id_portion with _ | c <;>
    rcases h2 : sec.term_name.bind (dictFind dm.terms) with _ | t <;> simp

theorem generate_foldl_eq (dm : DataManager) (l : List Sect)
    (acc : List CoursesRow × List SectionsRow × List EnrollmentsRow) :
    l.foldl (generateStep dm) acc =
      (acc.1 ++ (l.filterMap (coursesRowFor dm)),
       acc.2.1 ++ (l.filterMap (sectionsRowFor dm)),
       acc.2.2 ++ (l.map (enrollmentsRowsFor dm)).flatten) := by
  induction l generalizing acc with
  | nil => simp
  | cons s rest ih =>
      rw [List.foldl_cons, generateStep_eq, ih]
      rcases acc with ⟨a, b, c⟩
      simp [Option.toList]
      constructor
      · rcases h : coursesRowFor dm s with _ | r <;> simp [List.filterMap_cons, h]
      · rcases h : sectionsRowFor dm s with _ | r <;> simp [List.filterMap_cons, h]

/-- Closed form of the generation loop over the whole section list. -/
theorem generate_csv_files_eq (dm : DataManager) (h : dm.sections ≠ []) :
    generate_csv_files dm =
      Except.ok (dm.sections.filterMap (coursesRowFor dm),
                 dm.sections.filterMap (sectionsRowFor dm),
                 (dm.sections.map (enrollmentsRowsFor dm)).flatten) := by
  unfold generate_csv_files
  rw [if_neg (by simpa using h), generate_foldl_eq]
  simp

-- ## Concrete data for the generation claims (the scenario of spec section 8)

def courseCS : Course := Course.make "CS" "Intro to CS" "CS101" ""

def termFA25 : Term := ⟨"2501", "Fall 2025", "FA25"⟩

def secCS101 : Sect :=
  ⟨"CS101", some "Fall 2025", "7", "01", "active", "", "",
   [⟨"u1", "Student", "active"⟩]⟩

/-- A section pointing at a term name no Term record has. -/
def secOrphan : Sect :=
  ⟨"CS101", some "Nonexistent Term", "7", "02", "active", "", "",
   [⟨"u2", "Student", "active"⟩]⟩

def dmGen : DataManager :=
  { people := []
    courses := [("CS101", courseCS)]
    terms := [("Fall 2025", termFA25)]
    accounts := [("7", ⟨"7"⟩)]
    program_areas := []
    enrollment_roles := [("Student", "student")]
    sections := [secCS101, secOrphan] }

/-- C1: a Section whose course and term both resolve contributes exactly one
courses-row with `course_id = course_id_portion-short_code-section_number`,
short name from the Course, long name hyphen-joined with the section number,
the Section's account id, the Term's term id and the Section's status and
dates; exactly one sections-row with
`section_id = short_code-course_id_portion-section_number`; and one
enrollments-row per Enrollment, the role translated through the role map
with pass-through when unmapped — and the generated files are exactly the
per-section contributions concatenated in order. -/
theorem C1_canvas_row_derivation (dm : DataManager) (sec : Sect)
    (c : Course) (t : Term) (tn : String)
    (hmem : sec ∈ dm.sections)
    (hc : dictFind dm.courses sec.course_id_portion = some c)
    (htn : sec.term_name = some tn)
    (ht : dictFind dm.terms tn = some t) :
    generate_csv_files dm =
      Except.ok (dm.sections.filterMap (coursesRowFor dm),
                 dm.sections.filterMap (sectionsRowFor dm),
                 (dm.sections.map (enrollmentsRowsFor dm)).flatten) ∧
    coursesRowFor dm sec =
      some ⟨sec.course_id_portion ++ "-" ++ t.short_code ++ "-" ++ sec.section_number,
            c.short_name, c.long_name ++ "-" ++ sec.section_number,
            sec.account_id, t.term_id, sec.status, sec.start_date, sec.end_date⟩ ∧
    sectionsRowFor dm sec =
      some ⟨t.short_code ++ "-" ++ sec.course_id_portion ++ "-" ++ sec.section_number,
            sec.course_id_portion ++ "-" ++ t.short_code ++ "-" ++ sec.section_number,
            c.long_name ++ "-" ++ sec.section_number,
            sec.status, sec.start_date, sec.end_date⟩ ∧
    enrollmentsRowsFor dm sec =
      sec.enrollments.map (fun e =>
        ⟨sec.course_id_portion ++ "-" ++ t.short_code ++ "-" ++ sec.section_number,
         t.short_code ++ "-" ++ sec.course_id_portion ++ "-" ++ sec.section_number,
         e.user_id, (dictFind dm.enrollment_roles e.role).getD e.role, e.status⟩) := by
  have hne : dm.sections ≠ [] := by
    intro h0; rw [h0] at hmem; exact absurd hmem (List.not_mem_nil sec)
  refine ⟨generate_csv_files_eq dm hne, ?_, ?_, ?_⟩
  · unfold coursesRowFor; rw [hc, htn]; simp [ht]
  · unfold sectionsRowFor; rw [hc, htn]; simp [ht]
  · unfold enrollmentsRowsFor; rw [hc, htn]; simp [ht]

theorem C1_canvas_row_derivation_witness :
    coursesRowFor dmGen secCS101 =
      some ⟨"CS101-FA25-01", "CS", "Intro to CS-01", "7", "2501", "active", "", ""⟩ ∧
    sectionsRowFor dmGen secCS101 =
      some ⟨"FA25-CS101-01", "CS101-FA25-01", "Intro to CS-01", "active", "", ""⟩ ∧
    enrollmentsRowsFor dmGen secCS101 =
      [⟨"CS101-FA25-01", "FA25-CS101-01", "u1", "student", "active"⟩] := by
  have h := C1_canvas_row_derivation dmGen secCS101 courseCS termFA25 "Fall 2025"
    (by decide) (by decide) rfl (by decide)
  exact ⟨h.2.1.trans (by decide), h.2.2.1.trans (by decide), h.2.2.2.trans (by decide)⟩

/-- C9: a Section whose course or term does not resolve contributes no row to
any of the three files, and generation still succeeds (returns `ok`) with the
output being exactly the contributions of the resolvable Sections. -/
theorem C9_skip_unresolvable_section (dm : DataManager) (sec : Sect)
    (hmem : sec ∈ dm.sections)
    (hbad : dictFind dm.courses sec.course_id_portion = none ∨
            sec.term_name.bind (dictFind dm.terms) = none) :
    coursesRowFor dm sec = none ∧
    sectionsRowFor dm sec = none ∧
    enrollmentsRowsFor dm sec = [] ∧
    generate_csv_files dm =
      Except.ok (dm.sections.filterMap (coursesRowFor dm),
                 dm.sections.filterMap (sectionsRowFor dm),
                 (dm.sections.map (enrollmentsRowsFor dm)).flatten) := by
  have hne : dm.sections ≠ [] := by
    intro h0; rw [h0] at hmem; exact absurd hmem (List.not_mem_nil sec)
  refine ⟨?_, ?_, ?_, generate_csv_files_eq dm hne⟩
  · unfold coursesRowFor
    rcases hbad with h | h
    · rw [h]
    · rw [h]; rcases dictFind dm.courses sec.course_id_portion with _ | c <;> rfl
  · unfold sectionsRowFor
    rcases hbad with h | h
    · rw [h]
    · rw [h]; rcases dictFind dm.courses sec.course_id_portion with _ | c <;> rfl
  · unfold enrollmentsRowsFor
    rcases hbad with h | h
    · rw [h]
    · rw [h]; rcases dictFind dm.courses sec.course_id_portion with _ | c <;> rfl

theorem C9_skip_unresolvable_section_witness :
    coursesRowFor dmGen secOrphan = none ∧
    sectionsRowFor dmGen secOrphan = none ∧
    enrollmentsRowsFor dmGen secOrphan = [] ∧
    generate_csv_files dmGen =
      Except.ok (dmGen.sections.filterMap (coursesRowFor dmGen),
                 dmGen.sections.filterMap (sectionsRowFor dmGen),
                 (dmGen.sections.map (enrollmentsRowsFor dmGen)).flatten) :=
  C9_skip_unresolvable_section dmGen secOrphan (by decide) (Or.inr (by decide))

-- ## C2: add_enrollment and duplicate user ids
--
-- `Section.add_enrollment` is an unconditional `append`; the only caller,
-- `EnrollmentDialog.add_enrollment`, validates that the person string is a
-- known person and the role is nonempty, then constructs the Enrollment and
-- calls `section.add_enrollment(enrollment)`.  Neither place inspects the
-- existing `enrollments` list, so no duplicate-user_id check exists anywhere.

def secDup : Sect :=
  ⟨"CS101", some "Fall 2025", "7", "01", "active", "", "",
   [⟨"u1", "Student", "active"⟩]⟩

def enrollDup : Enrollment := ⟨"u1", "Teaching Assistant", "active"⟩

/-- C2 counterexample: adding an enrollment whose `user_id` is already present
does not fail and does not leave the list unchanged — the enrollment is
appended, leaving two enrollments with `user_id = "u1"` in one section. -/
theorem C2_counterexample :
    (Sect.add_enrollment secDup enrollDup).enrollments =
      [⟨"u1", "Student", "active"⟩, ⟨"u1", "Teaching Assistant", "active"⟩] ∧
    (Sect.add_enrollment secDup enrollDup).enrollments.countP
      (fun e => e.user_id = "u1") = 2 := by
  constructor
  · rfl
  · decide

/-- C2 amended: `add_enrollment` appends unconditionally even when the
`user_id` is already present in the section, so the list grows by the new
enrollment and ends up holding at least two enrollments with that user id;
no `DuplicateEnrollment` failure exists. -/
theorem C2_add_enrollment_appends (s : Sect) (e : Enrollment)
    (hdup : ∃ e' ∈ s.enrollments, e'.user_id = e.user_id) :
    (Sect.add_enrollment s e).enrollments = s.enrollments ++ [e] ∧
    2 ≤ (Sect.add_enrollment s e).enrollments.countP
        (fun x => x.user_id = e.user_id) := by
  refine ⟨rfl, ?_⟩
  show 2 ≤ (s.enrollments ++ [e]).countP (fun x => decide (x.user_id = e.user_id))
  rw [List.countP_append]
  rcases hdup with ⟨e', hmem, heq⟩
  have h1 : 0 < s.enrollments.countP (fun x => decide (x.user_id = e.user_id)) := by
    rw [List.countP_pos_iff]
    exact ⟨e', hmem, by simp [heq]⟩
  have h2 : List.countP (fun x => decide (x.user_id = e.user_id)) [e] = 1 := by simp
  omega

theorem C2_add_enrollment_appends_witness :
    (Sect.add_enrollment secDup enrollDup).enrollments =
      secDup.enrollments ++ [enrollDup] ∧
    2 ≤ (Sect.add_enrollment secDup enrollDup).enrollments.countP
        (fun x => x.user_id = enrollDup.user_id) :=
  C2_add_enrollment_appends secDup enrollDup
    ⟨⟨"u1", "Student", "active"⟩, by decide, rfl⟩

-- ## CSV import engine (DataManager._import_csv_data)

/-- A data row produced by `csv.DictReader`: header name to cell text.
`DictReader` yields a value for every header of the file, so a row is
total over the file's header list; `row.get(h)` for a header not in the
file is `None` (here `none`). -/
abbrev CsvRow : Type := Dict String

/-- Python truthiness of `row.get(h)`: false for a missing header
(`None`) and for an empty cell. -/
def cellTruthy (row : CsvRow) (h : String) : Bool :=
  match dictFind row h with
  | none => false
  | some v => v ≠ ""

/-- The `{added, skipped}` result of an entity import. -/
structure ImportCounts where
  added : Nat
  skipped : Nat
deriving DecidableEq

/-- One iteration of the row loop of `DataManager._import_csv_data`:
`key = row.get(key_field)`; skip if `not key or key in data_dict`; skip
if `any(not row.get(h) for h in required_headers)`; otherwise
`data_dict[key] = constructor(**args)` and count it added. -/
def csvImportRowStep {α : Type} (required_headers : List String)
    (key_field : String) (construct : CsvRow → α)
    (acc : Dict α × ImportCounts) (row : CsvRow) : Dict α × ImportCounts :=
  match dictFind row key_field with
  | none => (acc.1, { acc.2 with skipped := acc.2.skipped + 1 })
  | some key =>
      if key = "" ∨ dictContains acc.1 key then
        (acc.1, { acc.2 with skipped := acc.2.skipped + 1 })
      else if required_headers.any (fun h => !(cellTruthy row h)) then
        (acc.1, { acc.2 with skipped := acc.2.skipped + 1 })
      else
        (dictInsert acc.1 key (construct row),
         { acc.2 with added := acc.2.added + 1 })

/-- `DataManager._import_csv_data` up to file IO: validate that every
required header is among the file's headers (returning the error string
with the target dict untouched when one is missing — the check precedes
any mutation), then run the row loop over the data rows. -/
def csvImportData {α : Type} (csv_headers : List String) (rows : List CsvRow)
    (required_headers : List String) (data_dict : Dict α) (key_field : String)
    (construct : CsvRow → α) : Dict α × Except String ImportCounts :=
  if !required_headers.all (fun h => csv_headers.contains h) then
    (data_dict,
     Except.error ("CSV is missing one of the required headers: " ++
       String.intercalate ", " required_headers))
  else
    let r := rows.foldl (csvImportRowStep required_headers key_field construct)
      (data_dict, ⟨0, 0⟩)
    (r.1, Except.ok r.2)

/-- `Person(**args)` for the columns of a row that are Person constructor
parameters; `name` and `user_id` columns are guaranteed by the header
check, `program_area_name` defaults to the empty string when the column
is absent. -/
def Person.from_row (row : CsvRow) : Person :=
  ⟨(dictFind row "name").getD "", (dictFind row "user_id").getD "",
   (dictFind row "program_area_name").getD ""⟩

/-- `Course(**args)`, through `Course.__init__` (upper-casing). -/
def Course.from_row (row : CsvRow) : Course :=
  Course.make ((dictFind row "short_name").getD "")
    ((dictFind row "long_name").getD "")
    ((dictFind row "course_id_portion").getD "")
    ((dictFind row "program_area_name").getD "")

/-- `DataManager.import_people_from_csv`: the generic engine with
required headers `user_id, name`, target `self.people`, key `user_id`. -/
def csvImportPeople (csv_headers : List String) (rows : List CsvRow)
    (people : Dict Person) : Dict Person × Except String ImportCounts :=
  csvImportData csv_headers rows ["user_id", "name"] people "user_id"
    Person.from_row

/-- `DataManager.import_courses_from_csv`: required headers
`course_id_portion, short_name, long_name`, target `self.courses`, key
`course_id_portion`. -/
def csvImportCourses (csv_headers : List String) (rows : List CsvRow)
    (courses : Dict Course) : Dict Course × Except String ImportCounts :=
  csvImportData csv_headers rows ["course_id_portion", "short_name", "long_name"]
    courses "course_id_portion" Course.from_row

/-- C7: when any required header is missing from the file's header row,
the import returns the MissingHeaders error and the target collection is
returned exactly as it was — the validation precedes the row loop, so
zero rows are processed. -/
theorem C7_missing_headers_abort {α : Type} (csv_headers : List String)
    (rows : List CsvRow) (required_headers : List String) (data_dict : Dict α)
    (key_field : String) (construct : CsvRow → α)
    (hmiss : ∃ h ∈ required_headers, csv_headers.contains h = false) :
    csvImportData csv_headers rows required_headers data_dict key_field construct =
      (data_dict,
       Except.error ("CSV is missing one of the required headers: " ++
         String.intercalate ", " required_headers)) := by
  unfold csvImportData
  rcases hmiss with ⟨h, hmem, hnc⟩
  have : required_headers.all (fun h => csv_headers.contains h) = false := by
    rw [List.all_eq_false]
    exact ⟨h, hmem, by simpa using hnc⟩
  rw [this]
  rfl

theorem C7_missing_headers_abort_witness :
    csvImportPeople ["user_id"] [[("user_id", "u1")]] [] =
      ([], Except.error "CSV is missing one of the required headers: user_id, name") := by
  have h := C7_missing_headers_abort ["user_id"] [[("user_id", "u1")]]
    ["user_id", "name"] ([] : Dict Person) "user_id" Person.from_row
    ⟨"name", by decide, by decide⟩
  exact h.trans (by rfl)

-- Concrete data for the import-accounting claim: one pre-existing person
-- `u0`, five valid rows, one row with a blank `name`, one row whose
-- `user_id` duplicates `u0`.

def peopleBefore : Dict Person := [("u0", ⟨"Zed", "u0", ""⟩)]

def rowsPeople : List CsvRow :=
  [[("user_id", "u1"), ("name", "Alice")],
   [("user_id", "u2"), ("name", "Bob")],
   [("user_id", "u3"), ("name", "Cara")],
   [("user_id", "u4"), ("name", "Dan")],
   [("user_id", "u5"), ("name", "Eve")],
   [("user_id", "u6"), ("name", "")],
   [("user_id", "u0"), ("name", "Dup")]]

theorem csvImportRowStep_counts {α : Type} (required_headers : List String)
    (key_field : String) (construct : CsvRow → α)
    (acc : Dict α × ImportCounts) (row : CsvRow) :
    (csvImportRowStep required_headers key_field construct acc row).2.added +
      (csvImportRowStep required_headers key_field construct acc row).2.skipped =
      acc.2.added + acc.2.skipped + 1 := by
  rcases hk : dictFind row key_field with _ | key
  · simp [csvImportRowStep, hk]; omega
  · by_cases h1 : key = "" ∨ dictContains acc.1 key = true
    · simp [csvImportRowStep, hk, h1]; omega
    · by_cases h2 : (required_headers.any fun h => !(cellTruthy row h)) = true
      · simp [csvImportRowStep, hk, h1, h2]; omega
      · simp [csvImportRowStep, hk, h1, h2]; omega

theorem csvImport_foldl_counts {α : Type} (required_headers : List String)
    (key_field : String) (construct : CsvRow → α) (rows : List CsvRow)
    (acc : Dict α × ImportCounts) :
    (rows.foldl (csvImportRowStep required_headers key_field construct) acc).2.added +
      (rows.foldl (csvImportRowStep required_headers key_field construct) acc).2.skipped =
      acc.2.added + acc.2.skipped + rows.length := by
  induction rows generalizing acc with
  | nil => simp
  | cons r rest ih =>
      rw [List.foldl_cons, ih, csvImportRowStep_counts]
      simp only [List.length_cons]
      omega

/-- C8: with valid headers every data row is counted exactly once, as
skipped (empty key, key already in the evolving target collection, or a
blank required field) or as added (`added + skipped` equals the number of
rows); on the spec's concrete scenario — 5 valid Person rows, 1 row with
a blank `name`, 1 row whose `user_id` duplicates an existing Person —
the import returns `added = 5, skipped = 2` and inserts exactly the five
valid people. -/
theorem C8_import_skip_accounting :
    (∀ {α : Type} (csv_headers : List String) (rows : List CsvRow)
       (required_headers : List String) (data_dict : Dict α) (key_field : String)
       (construct : CsvRow → α) (cnt : ImportCounts),
       required_headers.all (fun h => csv_headers.contains h) = true →
       (csvImportData csv_headers rows required_headers data_dict key_field
          construct).2 = Except.ok cnt →
       cnt.added + cnt.skipped = rows.length) ∧
    csvImportPeople ["user_id", "name"] rowsPeople peopleBefore =
      ([("u0", ⟨"Zed", "u0", ""⟩), ("u1", ⟨"Alice", "u1", ""⟩),
        ("u2", ⟨"Bob", "u2", ""⟩), ("u3", ⟨"Cara", "u3", ""⟩),
        ("u4", ⟨"Dan", "u4", ""⟩), ("u5", ⟨"Eve", "u5", ""⟩)],
       Except.ok ⟨5, 2⟩) := by
  constructor
  · intro α csv_headers rows required_headers data_dict key_field construct cnt
      hall hok
    unfold csvImportData at hok
    rw [hall] at hok
    simp only [Bool.not_true, Bool.false_eq_true, if_false] at hok
    have := csvImport_foldl_counts required_headers key_field construct rows
      (data_dict, ⟨0, 0⟩)
    injection hok with hok
    rw [hok] at this
    simpa using this
  · rfl

theorem C8_import_skip_accounting_witness :
    (ImportCounts.mk 5 2).added + (ImportCounts.mk 5 2).skipped =
      rowsPeople.length :=
  C8_import_skip_accounting.1 ["user_id", "name"] rowsPeople ["user_id", "name"]
    peopleBefore "user_id" Person.from_row ⟨5, 2⟩ (by decide)
    (congrArg Prod.snd C8_import_skip_accounting.2)

-- ## Adding and editing Courses (App.add_item / App.edit_item, Course case)
--
-- `App.add_item` reads `dialog.result`, rejects an empty required field,
-- takes `key = dialog.result['course_id_portion']` — the caller's RAW
-- input — rejects an existing key, and stores
-- `Course(**dialog.result)` (whose `__init__` upper-cases the field)
-- under that raw key.  `None` models the error popup (no mutation).

/-- `dialog.result` for a Course dialog. -/
structure CourseInput where
  course_id_portion : String
  short_name : String
  long_name : String
  program_area_name : String

/-- `App.add_item("Course", ...)` after the dialog returns. -/
def add_course (dm : DataManager) (result : CourseInput) : Option DataManager :=
  if result.course_id_portion = "" ∨ result.short_name = "" ∨ result.long_name = ""
  then none
  else if dictContains dm.courses result.course_id_portion then none
  else some { dm with
    courses := dictInsert dm.courses result.course_id_portion
      (Course.make result.short_name result.long_name result.course_id_portion
        result.program_area_name) }

/-- `App.edit_item("Course", ...)`: `key` is the selected entry's key; a
Course rename triggers no cascade, only delete-old + insert-new. -/
def edit_course (dm : DataManager) (key : String) (result : CourseInput) :
    Option DataManager :=
  if result.short_name = "" ∨ result.long_name = "" then none
  else if result.course_id_portion ≠ key then
    if dictContains dm.courses result.course_id_portion then none
    else some { dm with
      courses := dictInsert (dictErase dm.courses key) result.course_id_portion
        (Course.make result.short_name result.long_name result.course_id_portion
          result.program_area_name) }
  else some { dm with
    courses := dictInsert dm.courses result.course_id_portion
      (Course.make result.short_name result.long_name result.course_id_portion
        result.program_area_name) }

theorem mem_dictInsert {α : Type} (d : Dict α) (k : String) (v : α)
    (p : String × α) (hp : p ∈ dictInsert d k v) : p = (k, v) ∨ p ∈ d := by
  induction d with
  | nil => simpa [dictInsert] using hp
  | cons q rest ih =>
      obtain ⟨qk, qv⟩ := q
      by_cases hq : qk = k
      · subst hq
        simp only [dictInsert, if_pos rfl] at hp
        simp only [if_true, List.mem_cons, eq_self_iff_true, ite_true] at hp
        rcases hp with h | h
        · exact Or.inl h
        · exact Or.inr (List.mem_cons_of_mem _ h)
      · simp only [dictInsert, if_neg hq, List.mem_cons] at hp
        rcases hp with h | h
        · exact Or.inr (by simp [h])
        · rcases ih h with h' | h'
          · exact Or.inl h'
          · exact Or.inr (List.mem_cons_of_mem _ h')

theorem mem_dictErase {α : Type} (d : Dict α) (k : String)
    (p : String × α) (hp : p ∈ dictErase d k) : p ∈ d := by
  induction d with
  | nil => simp [dictErase] at hp
  | cons q rest ih =>
      obtain ⟨qk, qv⟩ := q
      by_cases hq : qk = k
      · subst hq
        simp only [dictErase, if_pos rfl] at hp
        exact List.mem_cons_of_mem _ hp
      · simp only [dictErase, if_neg hq, List.mem_cons] at hp
        rcases hp with h | h
        · simp [h]
        · exact List.mem_cons_of_mem _ (ih h)

/-- The invariant that actually holds of the courses collection: each
stored Course's `course_id_portion` is the upper-cased form of its map
key (the key itself is the caller's raw input). -/
def courseKeyInv (d : Dict Course) : Prop :=
  ∀ p ∈ d, p.2.course_id_portion = pyUpper p.1

def rowsCoursesLower : List CsvRow :=
  [[("course_id_portion", "cs101"), ("short_name", "CS"),
    ("long_name", "Intro to CS")]]

/-- C10 counterexample: importing a Course row whose `course_id_portion`
cell is `"cs101"` stores the Course under map key `"cs101"` (the raw
input) while the stored field is `"CS101"`, so the map key does not
equal the stored `course_id_portion` field. -/
theorem C10_counterexample :
    (csvImportCourses ["course_id_portion", "short_name", "long_name"]
        rowsCoursesLower []).1 =
      [("cs101", ⟨"CS", "Intro to CS", "CS101", ""⟩)] ∧
    ("cs101" : String) ≠ "CS101" := by
  exact ⟨rfl, by decide⟩

theorem courseKeyInv_rowStep (required_headers : List String)
    (acc : Dict Course × ImportCounts) (row : CsvRow)
    (hinv : courseKeyInv acc.1) :
    courseKeyInv
      (csvImportRowStep required_headers "course_id_portion" Course.from_row
        acc row).1 := by
  rcases hk : dictFind row "course_id_portion" with _ | key
  · simpa [csvImportRowStep, hk] using hinv
  · by_cases h1 : key = "" ∨ dictContains acc.1 key = true
    · simpa [csvImportRowStep, hk, h1] using hinv
    · by_cases h2 : (required_headers.any fun h => !(cellTruthy row h)) = true
      · simpa [csvImportRowStep, hk, h1, h2] using hinv
      · simp only [csvImportRowStep, hk, h1, h2, if_neg h1, if_neg h2]
        intro p hp
        rcases mem_dictInsert _ _ _ p hp with h | h
        · rw [h]
          show (Course.from_row row).course_id_portion = pyUpper key
          unfold Course.from_row Course.make
          rw [hk]
          rfl
        · exact hinv p h

theorem courseKeyInv_foldl (required_headers : List String)
    (rows : List CsvRow) (acc : Dict Course × ImportCounts)
    (hinv : courseKeyInv acc.1) :
    courseKeyInv
      (rows.foldl
        (csvImportRowStep required_headers "course_id_portion" Course.from_row)
        acc).1 := by
  induction rows generalizing acc with
  | nil => simpa using hinv
  | cons r rest ih =>
      rw [List.foldl_cons]
      exact ih _ (courseKeyInv_rowStep required_headers acc r hinv)

/-- C10 amended: every Course placed by add, edit, or CSV import has
`course_id_portion` equal to the upper-cased caller input, and is stored
under the RAW caller input as map key, so the field equals the
upper-cased map key (not the key itself, which keeps the input's case). -/
theorem C10_course_uppercase_and_key (oldKey : String) :
    (∀ short_name long_name cip pa,
       (Course.make short_name long_name cip pa).course_id_portion = pyUpper cip) ∧
    (∀ dm result dm', add_course dm result = some dm' →
       courseKeyInv dm.courses → courseKeyInv dm'.courses) ∧
    (∀ dm result dm', edit_course dm oldKey result = some dm' →
       courseKeyInv dm.courses → courseKeyInv dm'.courses) ∧
    (∀ csv_headers rows d0, courseKeyInv d0 →
       courseKeyInv (csvImportCourses csv_headers rows d0).1) := by
  refine ⟨fun _ _ _ _ => rfl, ?_, ?_, ?_⟩
  · intro dm result dm' hsome hinv
    unfold add_course at hsome
    split_ifs at hsome with h1 h2
    cases hsome
    intro p hp
    rcases mem_dictInsert _ _ _ p hp with h | h
    · rw [h]; rfl
    · exact hinv p h
  · intro dm result dm' hsome hinv
    unfold edit_course at hsome
    split_ifs at hsome with h1 h2 h3
    · cases hsome
      intro p hp
      rcases mem_dictInsert _ _ _ p hp with h | h
      · rw [h]; rfl
      · exact hinv p (mem_dictErase _ _ _ h)
    · cases hsome
      intro p hp
      rcases mem_dictInsert _ _ _ p hp with h | h
      · rw [h]; rfl
      · exact hinv p h
  · intro csv_headers rows d0 hinv
    unfold csvImportCourses csvImportData
    split_ifs with h1
    · exact hinv
    · exact courseKeyInv_foldl _ rows (d0, ⟨0, 0⟩) hinv

theorem C10_course_uppercase_and_key_witness :
    (Course.make "CS" "Intro to CS" "cs101" "").course_id_portion = pyUpper "cs101" ∧
    courseKeyInv (csvImportCourses ["course_id_portion", "short_name", "long_name"]
      rowsCoursesLower []).1 :=
  ⟨(C10_course_uppercase_and_key "").1 "CS" "Intro to CS" "cs101" "",
   (C10_course_uppercase_and_key "").2.2.2 _ rowsCoursesLower []
     (fun p hp => absurd hp (List.not_mem_nil p))⟩

-- ## Renaming Terms and Program Areas (App.edit_item, cascade branch)
--
-- `App.edit_item` validates required fields, then when the new key
-- differs from the old key it rejects an existing key, cascades (Term →
-- every `section.term_name`; Program Area → every
-- `person.program_area_name` / `course.program_area_name`), deletes the
-- old entry and stores the rebuilt record under the new key.  The
-- cascade mutates values in place, so dict keys of people/courses and
-- the section list order are untouched.

/-- `App.edit_item("Term", ...)`; `result` is `dialog.result`, whose
`name` is the (possibly renamed) key.  `None` models the error popup. -/
def edit_term (dm : DataManager) (key : String) (result : Term) :
    Option DataManager :=
  if result.term_id = "" ∨ result.short_code = "" then none
  else if result.name ≠ key then
    if dictContains dm.terms result.name then none
    else some { dm with
      sections := dm.sections.map (fun s =>
        if s.term_name = some key then { s with term_name := some result.name }
        else s),
      terms := dictInsert (dictErase dm.terms key) result.name result }
  else some { dm with terms := dictInsert dm.terms result.name result }

/-- `App.edit_item("Program Area", ...)`: the only field is the key. -/
def edit_program_area (dm : DataManager) (key : String) (result : ProgramArea) :
    Option DataManager :=
  if result.name ≠ key then
    if dictContains dm.program_areas result.name then none
    else some { dm with
      people := dm.people.map (fun p =>
        (p.1, if p.2.program_area_name = key
              then { p.2 with program_area_name := result.name } else p.2)),
      courses := dm.courses.map (fun p =>
        (p.1, if p.2.program_area_name = key
              then { p.2 with program_area_name := result.name } else p.2)),
      program_areas := dictInsert (dictErase dm.program_areas key) result.name result }
  else some { dm with program_areas := dictInsert dm.program_areas result.name result }

theorem dictFind_map_value {α : Type} (d : Dict α) (f : α → α) (k : String) :
    dictFind (d.map (fun p => (p.1, f p.2))) k = (dictFind d k).map f := by
  induction d with
  | nil => rfl
  | cons q rest ih =>
      obtain ⟨qk, qv⟩ := q
      by_cases hq : qk = k
      · subst hq
        simp [dictFind]
      · simp [dictFind, hq, ih]

/-- C5: renaming a Term from `oldKey` to a fresh new name rewrites the
`term_name` of exactly the Sections that held `oldKey` (every other
Section is untouched, position by position) and leaves every other
collection unchanged, all within the one operation; renaming a
ProgramArea likewise rewrites `program_area_name` on exactly the Person
and Course records that held `oldKey`, leaving all keys and every other
collection unchanged. -/
theorem C5_cascade_rename (dm : DataManager) (oldKey paOldKey : String)
    (tNew : Term) (paNew : ProgramArea) (dmT dmP : DataManager)
    (ht1 : tNew.name ≠ oldKey)
    (ht2 : dictContains dm.terms tNew.name = false)
    (ht3 : tNew.term_id ≠ "") (ht4 : tNew.short_code ≠ "")
    (hT : edit_term dm oldKey tNew = some dmT)
    (hp1 : paNew.name ≠ paOldKey)
    (hp2 : dictContains dm.program_areas paNew.name = false)
    (hP : edit_program_area dm paOldKey paNew = some dmP) :
    ((∀ i : Nat, dmT.sections[i]? = (dm.sections[i]?).map (fun s =>
        if s.term_name = some oldKey then { s with term_name := some tNew.name }
        else s)) ∧
     dmT.people = dm.people ∧ dmT.courses = dm.courses ∧
     dmT.accounts = dm.accounts ∧ dmT.program_areas = dm.program_areas ∧
     dmT.enrollment_roles = dm.enrollment_roles) ∧
    ((∀ k : String, dictFind dmP.people k = (dictFind dm.people k).map (fun p =>
        if p.program_area_name = paOldKey
        then { p with program_area_name := paNew.name } else p)) ∧
     (∀ k : String, dictFind dmP.courses k = (dictFind dm.courses k).map (fun c =>
        if c.program_area_name = paOldKey
        then { c with program_area_name := paNew.name } else c)) ∧
     dmP.sections = dm.sections ∧ dmP.accounts = dm.accounts ∧
     dmP.terms = dm.terms ∧ dmP.enrollment_roles = dm.enrollment_roles) := by
  have hT' : dmT = { dm with
      sections := dm.sections.map (fun s =>
        if s.term_name = some oldKey then { s with term_name := some tNew.name }
        else s),
      terms := dictInsert (dictErase dm.terms oldKey) tNew.name tNew } := by
    unfold edit_term at hT
    rw [if_neg (by simp [ht3, ht4]), if_pos ht1, if_neg (by simp [ht2])] at hT
    exact (Option.some.inj hT).symm
  have hP' : dmP = { dm with
      people := dm.people.map (fun p =>
        (p.1, if p.2.program_area_name = paOldKey
              then { p.2 with program_area_name := paNew.name } else p.2)),
      courses := dm.courses.map (fun p =>
        (p.1, if p.2.program_area_name = paOldKey
              then { p.2 with program_area_name := paNew.name } else p.2)),
      program_areas := dictInsert (dictErase dm.program_areas paOldKey)
        paNew.name paNew } := by
    unfold edit_program_area at hP
    rw [if_pos hp1, if_neg (by simp [hp2])] at hP
    exact (Option.some.inj hP).symm
  subst hT'
  subst hP'
  refine ⟨⟨fun i => ?_, rfl, rfl, rfl, rfl, rfl⟩,
          ⟨fun k => ?_, fun k => ?_, rfl, rfl, rfl, rfl⟩⟩
  · exact List.getElem?_map _ _ _
  · exact dictFind_map_value dm.people (fun p =>
      if p.program_area_name = paOldKey
      then { p with program_area_name := paNew.name } else p) k
  · exact dictFind_map_value dm.courses (fun c =>
      if c.program_area_name = paOldKey
      then { c with program_area_name := paNew.name } else c) k

-- Concrete data for the cascade-rename claim.

def dmC5 : DataManager :=
  { people := [("u1", ⟨"Alice", "u1", "Nursing"⟩), ("u2", ⟨"Bob", "u2", "Welding"⟩)]
    courses := [("CS101", ⟨"CS", "Intro", "CS101", "Nursing"⟩)]
    terms := [("Fall 2025", ⟨"2251", "Fall 2025", "FA25"⟩)]
    accounts := []
    program_areas := [("Nursing", ⟨"Nursing"⟩)]
    enrollment_roles := []
    sections := [⟨"CS101", some "Fall 2025", "7", "01", "active", "", "", []⟩,
                 ⟨"CS101", some "Spring 2026", "7", "02", "active", "", "", []⟩] }

def dmC5T : DataManager :=
  { dmC5 with
    terms := [("Autumn 2025", ⟨"2251", "Autumn 2025", "FA25"⟩)]
    sections := [⟨"CS101", some "Autumn 2025", "7", "01", "active", "", "", []⟩,
                 ⟨"CS101", some "Spring 2026", "7", "02", "active", "", "", []⟩] }

def dmC5P : DataManager :=
  { dmC5 with
    people := [("u1", ⟨"Alice", "u1", "Health"⟩), ("u2", ⟨"Bob", "u2", "Welding"⟩)]
    courses := [("CS101", ⟨"CS", "Intro", "CS101", "Health"⟩)]
    program_areas := [("Health", ⟨"Health"⟩)] }

theorem C5_cascade_rename_witness :
    dmC5T.sections[0]? =
      some ⟨"CS101", some "Autumn 2025", "7", "01", "active", "", "", []⟩ ∧
    dmC5T.sections[1]? =
      some ⟨"CS101", some "Spring 2026", "7", "02", "active", "", "", []⟩ ∧
    dictFind dmC5P.people "u1" = some ⟨"Alice", "u1", "Health"⟩ ∧
    dictFind dmC5P.people "u2" = some ⟨"Bob", "u2", "Welding"⟩ ∧
    dictFind dmC5P.courses "CS101" = some ⟨"CS", "Intro", "CS101", "Health"⟩ ∧
    dmC5P.sections = dmC5.sections := by
  have h := C5_cascade_rename dmC5 "Fall 2025" "Nursing"
    ⟨"2251", "Autumn 2025", "FA25"⟩ ⟨"Health"⟩ dmC5T dmC5P (by decide)
    (by decide) (by decide) (by decide) (by decide) (by decide) (by decide)
    (by decide)
  exact ⟨(h.1.1 0).trans (by decide), (h.1.1 1).trans (by decide),
         (h.2.1 "u1").trans (by decide), (h.2.1 "u2").trans (by decide),
         (h.2.2.1 "CS101").trans (by decide), h.2.2.2.1⟩

-- ## Raw-dump export (DataManager.export_data_to_csvs)
--
-- For each selected known kind with at least one record the code writes
-- `{kind}.csv` with the DictWriter header and one row per record,
-- iterating `self.<collection>.values()` — i.e. the dict's insertion
-- order; empty collections are skipped with `continue` (no file).

/-- `Person.to_dict` through DictWriter fieldnames
`user_id, name, program_area_name`. -/
def personExportRow (p : Person) : List String :=
  [p.user_id, p.name, p.program_area_name]

/-- `Course.to_dict` through fieldnames
`course_id_portion, short_name, long_name, program_area_name`. -/
def courseExportRow (c : Course) : List String :=
  [c.course_id_portion, c.short_name, c.long_name, c.program_area_name]

/-- `Term.to_dict` through fieldnames `name, term_id, short_code`. -/
def termExportRow (t : Term) : List String := [t.name, t.term_id, t.short_code]

/-- `Account.to_dict` through fieldnames `account_id`. -/
def accountExportRow (a : Account) : List String := [a.account_id]

/-- `ProgramArea.to_dict` through fieldnames `name`. -/
def programAreaExportRow (pa : ProgramArea) : List String := [pa.name]

/-- The loop body of `export_data_to_csvs` for one selected kind: `none`
for an unknown kind or an empty collection (no file written), otherwise
the file `{kind}.csv` with its header row and one row per record in the
collection's stored order. -/
def exportFileFor (dm : DataManager) (data_type : String) :
    Option (String × List (List String)) :=
  match data_type with
  | "people" =>
      if dm.people.isEmpty then none
      else some ("people.csv",
        ["user_id", "name", "program_area_name"] ::
          (dictValues dm.people).map personExportRow)
  | "courses" =>
      if dm.courses.isEmpty then none
      else some ("courses.csv",
        ["course_id_portion", "short_name", "long_name", "program_area_name"] ::
          (dictValues dm.courses).map courseExportRow)
  | "terms" =>
      if dm.terms.isEmpty then none
      else some ("terms.csv",
        ["name", "term_id", "short_code"] :: (dictValues dm.terms).map termExportRow)
  | "accounts" =>
      if dm.accounts.isEmpty then none
      else some ("accounts.csv",
        ["account_id"] :: (dictValues dm.accounts).map accountExportRow)
  | "program_areas" =>
      if dm.program_areas.isEmpty then none
      else some ("program_areas.csv",
        ["name"] :: (dictValues dm.program_areas).map programAreaExportRow)
  | _ => none

/-- `DataManager.export_data_to_csvs` up to file IO: the files written,
in order, for the selected kinds. -/
def export_data_to_csvs (dm : DataManager) (data_types_to_export : List String) :
    List (String × List (List String)) :=
  data_types_to_export.foldl (fun acc dt =>
    match exportFileFor dm dt with
    | none => acc
    | some f => acc ++ [f]) []

/-- Lexicographic at-most on character lists (spec side; Python string
order for the ASCII range). -/
def charListLe : List Char → List Char → Bool
  | [], _ => true
  | _ :: _, [] => false
  | c :: cs, d :: ds =>
      if c.toNat < d.toNat then true
      else if d.toNat < c.toNat then false
      else charListLe cs ds

/-- Lexicographic at-most on strings (spec side). -/
def strLe (a b : String) : Bool := charListLe a.data b.data

/-- Insertion into a key-sorted association list (spec side). -/
def insertSorted {α : Type} (p : String × α) : Dict α → Dict α
  | [] => [p]
  | q :: rest => if strLe p.1 q.1 then p :: q :: rest else q :: insertSorted p rest

/-- Sorting an association list by key (spec side). -/
def sortByKey {α : Type} (d : Dict α) : Dict α := d.foldr insertSorted []

/-- Modelled from the spec's words, for comparison with `exportFileFor`:
the people dump with rows "sorted by key". -/
def exportPeopleSortedSpec (dm : DataManager) :
    Option (String × List (List String)) :=
  if dm.people.isEmpty then none
  else some ("people.csv",
    ["user_id", "name", "program_area_name"] ::
      (dictValues (sortByKey dm.people)).map personExportRow)

/-- People inserted out of key order: "b" first, then "a". -/
def dmExportCE : DataManager :=
  { people := [("b", ⟨"Bob", "b", ""⟩), ("a", ⟨"Alice", "a", ""⟩)]
    courses := []
    terms := []
    accounts := []
    program_areas := []
    enrollment_roles := []
    sections := [] }

/-- C6 counterexample: the raw dump writes rows in the collection's
insertion order, not sorted by key — with people inserted as "b" then
"a" the produced file has the "b" row first, while the spec's
sorted-by-key file has the "a" row first, and the two differ. -/
theorem C6_counterexample :
    export_data_to_csvs dmExportCE ["people"] =
      [("people.csv", [["user_id", "name", "program_area_name"],
                       ["b", "Bob", ""], ["a", "Alice", ""]])] ∧
    exportPeopleSortedSpec dmExportCE =
      some ("people.csv", [["user_id", "name", "program_area_name"],
                           ["a", "Alice", ""], ["b", "Bob", ""]]) ∧
    export_data_to_csvs dmExportCE ["people"] ≠
      [("people.csv", [["user_id", "name", "program_area_name"],
                       ["a", "Alice", ""], ["b", "Bob", ""]])] := by
  refine ⟨rfl, by decide, ?_⟩
  decide

/-- C6 amended: a selected kind with zero records produces no file at
all, and a kind with at least one record produces exactly one file with
one header row plus one row per record — the rows in the collection's
insertion order (not sorted by key); the full output is the
concatenation of the per-kind contributions in selection order. -/
theorem C6_export_selection (dm : DataManager) (data_types : List String) :
    export_data_to_csvs dm data_types = data_types.filterMap (exportFileFor dm) ∧
    (dm.people = [] → exportFileFor dm "people" = none) ∧
    (dm.people ≠ [] → ∃ rows,
       exportFileFor dm "people" =
         some ("people.csv", ["user_id", "name", "program_area_name"] :: rows) ∧
       rows = (dictValues dm.people).map personExportRow ∧
       rows.length = dm.people.length) ∧
    (dm.courses = [] → exportFileFor dm "courses" = none) ∧
    (dm.courses ≠ [] → ∃ rows,
       exportFileFor dm "courses" =
         some ("courses.csv",
           ["course_id_portion", "short_name", "long_name", "program_area_name"] ::
             rows) ∧
       rows = (dictValues dm.courses).map courseExportRow ∧
       rows.length = dm.courses.length) ∧
    (dm.terms = [] → exportFileFor dm "terms" = none) ∧
    (dm.terms ≠ [] → ∃ rows,
       exportFileFor dm "terms" =
         some ("terms.csv", ["name", "term_id", "short_code"] :: rows) ∧
       rows = (dictValues dm.terms).map termExportRow ∧
       rows.length = dm.terms.length) ∧
    (dm.accounts = [] → exportFileFor dm "accounts" = none) ∧
    (dm.accounts ≠ [] → ∃ rows,
       exportFileFor dm "accounts" =
         some ("accounts.csv", ["account_id"] :: rows) ∧
       rows = (dictValues dm.accounts).map accountExportRow ∧
       rows.length = dm.accounts.length) ∧
    (dm.program_areas = [] → exportFileFor dm "program_areas" = none) ∧
    (dm.program_areas ≠ [] → ∃ rows,
       exportFileFor dm "program_areas" =
         some ("program_areas.csv", ["name"] :: rows) ∧
       rows = (dictValues dm.program_areas).map programAreaExportRow ∧
       rows.length = dm.program_areas.length) := by
  constructor
  · show (export_data_to_csvs dm data_types = _)
    unfold export_data_to_csvs
    suffices hgen : ∀ (ts : List String) (acc : List (String × List (List String))),
        ts.foldl (fun acc dt =>
          match exportFileFor dm dt with
          | none => acc
          | some f => acc ++ [f]) acc = acc ++ ts.filterMap (exportFileFor dm) by
      simpa using hgen data_types []
    intro ts
    induction ts with
    | nil => intro acc; simp
    | cons t rest ih =>
        intro acc
        rcases hf : exportFileFor dm t with _ | f
        · rw [List.foldl_cons]
          simp only [hf]
          rw [ih acc, List.filterMap_cons, hf]
        · rw [List.foldl_cons]
          simp only [hf]
          rw [ih (acc ++ [f]), List.filterMap_cons, hf]
          simp
  · refine ⟨?_, ?_, ?_, ?_, ?_, ?_, ?_, ?_, ?_, ?_⟩ <;> intro h
    · simp [exportFileFor, h]
    · exact ⟨_, by simp [exportFileFor, List.isEmpty_iff, h], rfl,
        by simp [dictValues]⟩
    · simp [exportFileFor, h]
    · exact ⟨_, by simp [exportFileFor, List.isEmpty_iff, h], rfl,
        by simp [dictValues]⟩
    · simp [exportFileFor, h]
    · exact ⟨_, by simp [exportFileFor, List.isEmpty_iff, h], rfl,
        by simp [dictValues]⟩
    · simp [exportFileFor, h]
    · exact ⟨_, by simp [exportFileFor, List.isEmpty_iff, h], rfl,
        by simp [dictValues]⟩
    · simp [exportFileFor, h]
    · exact ⟨_, by simp [exportFileFor, List.isEmpty_iff, h], rfl,
        by simp [dictValues]⟩

theorem C6_export_selection_witness :
    exportFileFor dmExportCE "courses" = none ∧
    (∃ rows, exportFileFor dmExportCE "people" =
        some ("people.csv", ["user_id", "name", "program_area_name"] :: rows) ∧
      rows = (dictValues dmExportCE.people).map personExportRow ∧
      rows.length = dmExportCE.people.length) :=
  ⟨(C6_export_selection dmExportCE []).2.2.2.1 rfl,
   (C6_export_selection dmExportCE []).2.2.1 (by decide)⟩

-- ## Persistence (DataManager.save_data / DataManager.load_data)
--
-- A persisted document is JSON; each record is the flat key-value map
-- produced by `to_dict`, with `Option` marking keys that may be absent
-- in legacy documents (`data.get` with a default in `from_dict` /
-- `load_data`).  The IO/parse-failure fallback to an empty repository is
-- file-system behaviour and is not modelled; `load_data` below is the
-- successful-parse path.

/-- `Person.to_dict` output / input to `Person.from_dict`. -/
structure PersonRec where
  name : String
  user_id : String
  program_area_name : Option String
deriving DecidableEq

def Person.to_dict (p : Person) : PersonRec := ⟨p.name, p.user_id, some p.program_area_name⟩

def Person.from_dict (r : PersonRec) : Person :=
  ⟨r.name, r.user_id, r.program_area_name.getD ""⟩

/-- `Course.to_dict` output / input to `Course.from_dict`. -/
structure CourseRec where
  short_name : String
  long_name : String
  course_id_portion : String
  program_area_name : Option String
deriving DecidableEq

def Course.to_dict (c : Course) : CourseRec :=
  ⟨c.short_name, c.long_name, c.course_id_portion, some c.program_area_name⟩

/-- `Course.from_dict` calls `Course.__init__`, which upper-cases. -/
def Course.from_dict (r : CourseRec) : Course :=
  Course.make r.short_name r.long_name r.course_id_portion
    (r.program_area_name.getD "")

structure ProgramAreaRec where
  name : String
deriving DecidableEq

def ProgramArea.to_dict (pa : ProgramArea) : ProgramAreaRec := ⟨pa.name⟩

def ProgramArea.from_dict (r : ProgramAreaRec) : ProgramArea := ⟨r.name⟩

/-- `Term.to_dict` output / input to `Term.from_dict` (every field read
with `data.get(k, '')`). -/
structure TermRec where
  term_id : Option String
  name : Option String
  short_code : Option String
deriving DecidableEq

def Term.to_dict (t : Term) : TermRec := ⟨some t.term_id, some t.name, some t.short_code⟩

def Term.from_dict (r : TermRec) : Term :=
  ⟨r.term_id.getD "", r.name.getD "", r.short_code.getD ""⟩

structure AccountRec where
  account_id : String
deriving DecidableEq

def Account.to_dict (a : Account) : AccountRec := ⟨a.account_id⟩

def Account.from_dict (r : AccountRec) : Account := ⟨r.account_id⟩

/-- `Enrollment.to_dict` output / input to `Enrollment.from_dict`
(`status` read with default `'active'`). -/
structure EnrollmentRec where
  user_id : String
  role : String
  status : Option String
deriving DecidableEq

def Enrollment.to_dict (e : Enrollment) : EnrollmentRec :=
  ⟨e.user_id, e.role, some e.status⟩

def Enrollment.from_dict (r : EnrollmentRec) : Enrollment :=
  ⟨r.user_id, r.role, r.status.getD "active"⟩

/-- A persisted Section record.  A legacy document may carry a `term_id`
key and no `term_name`; `Section.from_dict` reads only
`course_id_portion`, `term_name` (via `data.get`, so possibly `None`),
`account_id`, `section_number`, `status`/`start_date`/`end_date` (with
defaults) and `enrollments` — the `term_id` key of the record is simply
never read, so it reaches no attribute of the constructed object. -/
structure SectionRec where
  course_id_portion : String
  term_name : Option String
  term_id : Option String
  account_id : String
  section_number : String
  status : Option String
  start_date : Option String
  end_date : Option String
  enrollments : Option (List EnrollmentRec)
deriving DecidableEq

/-- `Section.to_dict`: writes `term_name` (possibly `None`) and never a
`term_id` key. -/
def Sect.to_dict (s : Sect) : SectionRec :=
  ⟨s.course_id_portion, s.term_name, none, s.account_id, s.section_number,
   some s.status, some s.start_date, some s.end_date,
   some (s.enrollments.map Enrollment.to_dict)⟩

def Sect.from_dict (r : SectionRec) : Sect :=
  ⟨r.course_id_portion, r.term_name, r.account_id, r.section_number,
   r.status.getD "active", r.start_date.getD "", r.end_date.getD "",
   (r.enrollments.getD []).map Enrollment.from_dict⟩

/-- The persisted document: five keyed collections, the role map, the
Section list, plus the legacy `departments` spelling of the program-area
collection (each read with `data.get` and a default). -/
structure Document where
  people : Option (Dict PersonRec)
  courses : Option (Dict CourseRec)
  terms : Option (Dict TermRec)
  accounts : Option (Dict AccountRec)
  program_areas : Option (Dict ProgramAreaRec)
  departments : Option (Dict ProgramAreaRec)
  enrollment_roles : Option (Dict String)
  sections : Option (List SectionRec)
deriving DecidableEq

/-- `DataManager._get_default_roles`. -/
def get_default_roles : Dict String :=
  [("Student", "student"), ("Teaching Assistant", "ta"),
   ("Instructor", "teacher"), ("Program Manager", "Program Manager")]

/-- `DataManager.initialize_empty`. -/
def initialize_empty : DataManager :=
  ⟨[], [], [], [], [], get_default_roles, []⟩

/-- `hasattr(section, 'term_id')` for any Section object built by
`Section.from_dict`: identically false — `Section.__init__` assigns
`course_id_portion`, `term_name`, `account_id`, `section_number`,
`status`, `start_date`, `end_date` and `enrollments`, never `term_id`,
and nothing else sets it before the migration loop runs. -/
def section_hasattr_term_id (_ : Sect) : Bool := false

/-- `hasattr(section, 'term_name')`: identically true —
`Section.__init__` unconditionally assigns `self.term_name` (possibly
`None`). -/
def section_hasattr_term_name (_ : Sect) : Bool := true

/-- `if not term_obj.name: term_obj.name = term_obj.term_id` — the
legacy-data name fallback applied inside the terms loop of `load_data`. -/
def termNameFix (t : Term) : Term :=
  if t.name = "" then { t with name := t.term_id } else t

/-- The per-record body of the terms loop in `load_data`: build the Term
with `Term.from_dict`, default an empty `name` to `term_id`, store it
under `term_obj.name`, and record `term_id → name` in the lookup map. -/
def loadTermsStep (acc : Dict Term × Dict String) (td : TermRec) :
    Dict Term × Dict String :=
  (dictInsert acc.1 (termNameFix (Term.from_dict td)).name
    (termNameFix (Term.from_dict td)),
   dictInsert acc.2 (termNameFix (Term.from_dict td)).term_id
    (termNameFix (Term.from_dict td)).name)

/-- The terms loop iterates `raw_terms.items()` discarding the stored
key (`for _, term_data in raw_terms.items()`). -/
def loadTermsEntry (acc : Dict Term × Dict String) (p : String × TermRec) :
    Dict Term × Dict String :=
  loadTermsStep acc p.2

/-- The per-section body of the migration loop at the end of
`load_data`.  The first branch (`hasattr(section, 'term_id') and not
hasattr(section, 'term_name')`) is unreachable: its condition is
`false && _`, because a `from_dict` Section always has `term_name` and
never has `term_id` — the source would resolve `term_name` by linear
search over Terms and `delattr` the legacy field there, but control
never enters.  The live `elif` rewrites a truthy `term_name` that is not
a Terms key but is a known `term_id` to the corresponding Term name. -/
def migrateSection (terms : Dict Term) (idNameMap : Dict String) (s : Sect) :
    Sect :=
  if section_hasattr_term_id s && !(section_hasattr_term_name s) then
    s
  else
    match s.term_name with
    | none => s
    | some tn =>
        if tn = "" then s
        else if dictContains terms tn then s
        else
          match dictFind idNameMap tn with
          | some nm => { s with term_name := some nm }
          | none => s

/-- `DataManager.load_data`, successful-parse path. -/
def load_data (doc : Document) : DataManager :=
  let people := (doc.people.getD []).map (fun p => (p.1, Person.from_dict p.2))
  let courses := (doc.courses.getD []).map (fun p => (p.1, Course.from_dict p.2))
  let program_areas_data := (doc.program_areas).getD ((doc.departments).getD [])
  let program_areas :=
    program_areas_data.map (fun p => (p.1, ProgramArea.from_dict p.2))
  let tfold := (doc.terms.getD []).foldl loadTermsEntry ([], [])
  let accounts := (doc.accounts.getD []).map (fun p => (p.1, Account.from_dict p.2))
  let sections0 := (doc.sections.getD []).map Sect.from_dict
  let enrollment_roles := (doc.enrollment_roles).getD get_default_roles
  let sections := sections0.map (migrateSection tfold.1 tfold.2)
  ⟨people, courses, tfold.1, accounts, program_areas, enrollment_roles, sections⟩

/-- `DataManager.save_data`, up to file IO: the document written. -/
def save_data (dm : DataManager) : Document :=
  ⟨some (dm.people.map (fun p => (p.1, Person.to_dict p.2))),
   some (dm.courses.map (fun p => (p.1, Course.to_dict p.2))),
   some (dm.terms.map (fun p => (p.1, Term.to_dict p.2))),
   some (dm.accounts.map (fun p => (p.1, Account.to_dict p.2))),
   some (dm.program_areas.map (fun p => (p.1, ProgramArea.to_dict p.2))),
   none,
   some dm.enrollment_roles,
   some (dm.sections.map Sect.to_dict)⟩

/-- The document of the legacy-migration claim: a Section record with
`term_id = "2251"` and no `term_name`, and a Term record with
`term_id = "2251"`, `name = "Spring 2025"`. -/
def docLegacy : Document :=
  { people := some []
    courses := some []
    terms := some [("2251", ⟨some "2251", some "Spring 2025", some "SP25"⟩)]
    accounts := some []
    program_areas := some []
    departments := none
    enrollment_roles := some []
    sections := some [⟨"CS101", none, some "2251", "7", "01", some "active",
                       some "", some "", some []⟩] }

/-- C3, evaluated at the claim's input: the migration guard
`hasattr(section, 'term_id') and not hasattr(section, 'term_name')` is
identically false for every loaded Section, so loading the legacy
document leaves the Section's `term_name` as `None` — it does NOT become
`"Spring 2025"` (the record's `term_id` is discarded, but unresolved). -/
theorem C3_legacy_migration_dead :
    (∀ s : Sect,
       (section_hasattr_term_id s && !(section_hasattr_term_name s)) = false) ∧
    (load_data docLegacy).terms =
      [("Spring 2025", ⟨"2251", "Spring 2025", "SP25"⟩)] ∧
    (load_data docLegacy).sections = [⟨"CS101", none, "7", "01", "active", "", "", []⟩] ∧
    ∀ s ∈ (load_data docLegacy).sections, s.term_name ≠ some "Spring 2025" := by
  refine ⟨fun s => rfl, by decide, by decide, by decide⟩

-- Helper lemmas for the round-trip proof.

theorem listMapId {β : Type} (l : List β) (f : β → β) (h : ∀ x ∈ l, f x = x) :
    l.map f = l := by
  induction l with
  | nil => rfl
  | cons a rest ih =>
      rw [List.map_cons, h a (List.mem_cons_self a rest),
          ih (fun x hx => h x (List.mem_cons_of_mem a hx))]

theorem dictContains_cons {α : Type} (qk : String) (qv : α) (rest : Dict α)
    (k : String) :
    dictContains ((qk, qv) :: rest) k =
      if qk = k then true else dictContains rest k := by
  by_cases hq : qk = k <;> simp [dictContains, dictFind, hq]

theorem dictInsert_of_not_contains {α : Type} (d : Dict α) (k : String) (v : α)
    (h : dictContains d k = false) : dictInsert d k v = d ++ [(k, v)] := by
  induction d with
  | nil => rfl
  | cons q rest ih =>
      obtain ⟨qk, qv⟩ := q
      rw [dictContains_cons] at h
      by_cases hq : qk = k
      · rw [if_pos hq] at h
        cases h
      · rw [if_neg hq] at h
        simp [dictInsert, hq, ih h]

theorem dictContains_append_single {α : Type} (d : Dict α) (k k' : String)
    (v : α) :
    dictContains (d ++ [(k, v)]) k' = true ↔
      (dictContains d k' = true ∨ k = k') := by
  induction d with
  | nil =>
      by_cases hk : k = k' <;>
        simp [dictContains, dictFind, hk]
  | cons q rest ih =>
      obtain ⟨qk, qv⟩ := q
      rw [List.cons_append, dictContains_cons, dictContains_cons]
      by_cases hq : qk = k' <;> simp [hq, ih]

theorem dictFind_insert_ne {α : Type} (d : Dict α) (k : String) (v : α)
    (k' : String) (h : k ≠ k') :
    dictFind (dictInsert d k v) k' = dictFind d k' := by
  induction d with
  | nil => simp [dictInsert, dictFind, h]
  | cons q rest ih =>
      obtain ⟨qk, qv⟩ := q
      by_cases hq : qk = k
      · subst hq
        simp [dictInsert, dictFind, h]
      · by_cases hq' : qk = k' <;>
          simp [dictInsert, dictFind, hq, hq', ih, Ne.symm h]

theorem loadTermsEntry_eq (acc1 : Dict Term) (acc2 : Dict String)
    (qk : String) (qt : Term) (hne : qt.name ≠ "") :
    loadTermsEntry (acc1, acc2) (qk, Term.to_dict qt) =
      (dictInsert acc1 qt.name qt, dictInsert acc2 qt.term_id qt.name) := by
  unfold loadTermsEntry loadTermsStep
  rw [show Term.from_dict (Term.to_dict qt) = qt from rfl]
  unfold termNameFix
  rw [if_neg hne]

theorem loadTerms_foldl_terms (l : Dict Term) :
    ∀ (acc1 : Dict Term) (acc2 : Dict String),
    (∀ p ∈ l, p.2.name = p.1 ∧ p.1 ≠ "") →
    (l.map Prod.fst).Nodup →
    (∀ k ∈ l.map Prod.fst, dictContains acc1 k = false) →
    ((l.map (fun q => (q.1, Term.to_dict q.2))).foldl loadTermsEntry
      (acc1, acc2)).1 = acc1 ++ l := by
  induction l with
  | nil => intro acc1 acc2 _ _ _; simp
  | cons q rest ih =>
      intro acc1 acc2 hW hnd hacc
      obtain ⟨qk, qt⟩ := q
      obtain ⟨hname, hne⟩ := hW (qk, qt) (List.mem_cons_self _ _)
      have hname' : qt.name = qk := hname
      have hne' : qt.name ≠ "" := by rw [hname']; exact hne
      have hc : dictContains acc1 qk = false :=
        hacc qk (by simp)
      rw [List.map_cons, List.foldl_cons, loadTermsEntry_eq acc1 acc2 qk qt hne',
          hname', dictInsert_of_not_contains acc1 qk qt hc]
      have hnd' : (rest.map Prod.fst).Nodup := (List.nodup_cons.mp (by simpa using hnd)).2
      have hqk_not : qk ∉ rest.map Prod.fst := (List.nodup_cons.mp (by simpa using hnd)).1
      have hacc' : ∀ k ∈ rest.map Prod.fst,
          dictContains (acc1 ++ [(qk, qt)]) k = false := by
        intro k hk
        rw [Bool.eq_false_iff]
        intro htrue
        rcases (dictContains_append_single acc1 qk k qt).mp htrue with h | h
        · have h0 : dictContains acc1 k = false := hacc k (List.mem_cons_of_mem _ hk)
          rw [h0] at h
          cases h
        · exact hqk_not (h ▸ hk)
      rw [ih (acc1 ++ [(qk, qt)]) (dictInsert acc2 qt.term_id qk)
            (fun p hp => hW p (List.mem_cons_of_mem _ hp)) hnd' hacc']
      simp

theorem loadTerms_foldl_idmap (l : Dict Term) (tn : String) :
    ∀ (acc1 : Dict Term) (acc2 : Dict String),
    dictFind acc2 tn = none →
    (∀ p ∈ l, p.2.term_id ≠ tn) →
    (∀ p ∈ l, p.2.name = p.1 ∧ p.1 ≠ "") →
    dictFind ((l.map (fun q => (q.1, Term.to_dict q.2))).foldl loadTermsEntry
      (acc1, acc2)).2 tn = none := by
  induction l with
  | nil => intro _ _ h _ _; simpa using h
  | cons q rest ih =>
      intro acc1 acc2 hnone hid hW
      obtain ⟨qk, qt⟩ := q
      obtain ⟨hname, hne⟩ := hW (qk, qt) (List.mem_cons_self _ _)
      have hname' : qt.name = qk := hname
      have hne' : qt.name ≠ "" := by rw [hname']; exact hne
      rw [List.map_cons, List.foldl_cons, loadTermsEntry_eq acc1 acc2 qk qt hne']
      exact ih _ _
        (by rw [dictFind_insert_ne _ _ _ _ (hid (qk, qt) (List.mem_cons_self _ _))]
            exact hnone)
        (fun p hp => hid p (List.mem_cons_of_mem _ hp))
        (fun p hp => hW p (List.mem_cons_of_mem _ hp))

theorem sect_roundtrip (s : Sect) : Sect.from_dict (Sect.to_dict s) = s := by
  obtain ⟨cip, tn, aid, sn, st, sd, ed, es⟩ := s
  simp only [Sect.to_dict, Sect.from_dict, Option.getD_some, List.map_map]
  exact congrArg (Sect.mk cip tn aid sn st sd ed)
    (listMapId es _ (fun e he => rfl))

theorem migrateSection_noop (terms : Dict Term) (idNameMap : Dict String)
    (s : Sect)
    (h : ∀ tn, s.term_name = some tn → tn ≠ "" →
       dictContains terms tn = true ∨ dictFind idNameMap tn = none) :
    migrateSection terms idNameMap s = s := by
  rcases hs : s.term_name with _ | tn
  · simp [migrateSection, section_hasattr_term_id, section_hasattr_term_name, hs]
  · by_cases h1 : tn = ""
    · simp [migrateSection, section_hasattr_term_id, section_hasattr_term_name,
        hs, h1]
    · rcases h tn hs h1 with h2 | h2 <;>
        simp [migrateSection, section_hasattr_term_id, section_hasattr_term_name,
          hs, h1, h2]

/-- A section's term reference carries no legacy value: its `term_name`,
when truthy, is either a valid Terms key or matches no Term's `term_id`
(otherwise `load_data` would rewrite it through the lookup table). -/
def termRefOk (dm : DataManager) (s : Sect) : Bool :=
  match s.term_name with
  | none => true
  | some tn => dictContains dm.terms tn || dm.terms.all (fun p => !(p.2.term_id == tn))

/-- "Populated state with no legacy fields present": Terms are keyed by
their non-empty display name with no duplicate keys (the invariant the
add/edit/import paths maintain), every Section's term reference is
legacy-free, and every stored Course's `course_id_portion` is already
upper-cased (as `Course.__init__` guarantees). -/
def wellFormed (dm : DataManager) : Prop :=
  (∀ p ∈ dm.terms, p.2.name = p.1 ∧ p.1 ≠ "") ∧
  (dm.terms.map Prod.fst).Nodup ∧
  (∀ s ∈ dm.sections, termRefOk dm s = true) ∧
  (∀ p ∈ dm.courses, pyUpper p.2.course_id_portion = p.2.course_id_portion)

/-- C4: `save()` followed by `load()` reproduces the repository exactly
— same keys and same field values in every collection, including the
Section list with its nested Enrollments — for any populated state with
no legacy fields. -/
theorem C4_save_load_round_trip (dm : DataManager) (h : wellFormed dm) :
    load_data (save_data dm) = dm := by
  obtain ⟨W1, W2, W3, W4⟩ := h
  have hterms : (load_data (save_data dm)).terms = dm.terms := by
    show ((dm.terms.map (fun q => (q.1, Term.to_dict q.2))).foldl loadTermsEntry
      ([], [])).1 = dm.terms
    rw [loadTerms_foldl_terms dm.terms [] [] W1 W2 (fun k _ => rfl)]
    rfl
  have hpeople : (load_data (save_data dm)).people = dm.people := by
    show (dm.people.map (fun p => (p.1, Person.to_dict p.2))).map
      (fun p => (p.1, Person.from_dict p.2)) = dm.people
    rw [List.map_map]
    exact listMapId _ _ (fun q hq => rfl)
  have hcourses : (load_data (save_data dm)).courses = dm.courses := by
    show (dm.courses.map (fun p => (p.1, Course.to_dict p.2))).map
      (fun p => (p.1, Course.from_dict p.2)) = dm.courses
    rw [List.map_map]
    apply listMapId
    intro q hq
    have h4 : pyUpper q.2.course_id_portion = q.2.course_id_portion := W4 q hq
    obtain ⟨k, c⟩ := q
    obtain ⟨sn, ln, cip, pa⟩ := c
    have h4' : pyUpper cip = cip := h4
    show (k, Course.from_dict (Course.to_dict ⟨sn, ln, cip, pa⟩)) = _
    simp only [Course.from_dict, Course.to_dict, Course.make, Option.getD_some]
    rw [h4']
  have hpa : (load_data (save_data dm)).program_areas = dm.program_areas := by
    show (dm.program_areas.map (fun p => (p.1, ProgramArea.to_dict p.2))).map
      (fun p => (p.1, ProgramArea.from_dict p.2)) = dm.program_areas
    rw [List.map_map]
    exact listMapId _ _ (fun q hq => rfl)
  have haccounts : (load_data (save_data dm)).accounts = dm.accounts := by
    show (dm.accounts.map (fun p => (p.1, Account.to_dict p.2))).map
      (fun p => (p.1, Account.from_dict p.2)) = dm.accounts
    rw [List.map_map]
    exact listMapId _ _ (fun q hq => rfl)
  have hroles : (load_data (save_data dm)).enrollment_roles = dm.enrollment_roles :=
    rfl
  have hsections : (load_data (save_data dm)).sections = dm.sections := by
    show ((dm.sections.map Sect.to_dict).map Sect.from_dict).map
      (migrateSection
        ((dm.terms.map (fun q => (q.1, Term.to_dict q.2))).foldl loadTermsEntry
          ([], [])).1
        ((dm.terms.map (fun q => (q.1, Term.to_dict q.2))).foldl loadTermsEntry
          ([], [])).2) = dm.sections
    rw [List.map_map, List.map_map]
    apply listMapId
    intro s hs
    show migrateSection _ _ (Sect.from_dict (Sect.to_dict s)) = s
    rw [sect_roundtrip s]
    apply migrateSection_noop
    intro tn htn hne0
    have h3 := W3 s hs
    unfold termRefOk at h3
    rw [htn] at h3
    rw [Bool.or_eq_true] at h3
    rcases h3 with h3 | h3
    · left
      rw [loadTerms_foldl_terms dm.terms [] [] W1 W2 (fun k _ => rfl)]
      simpa using h3
    · right
      apply loadTerms_foldl_idmap dm.terms tn [] [] rfl ?_ W1
      intro p hp
      have hb := List.all_eq_true.mp h3 p hp
      simpa using hb
  calc load_data (save_data dm)
      = ⟨(load_data (save_data dm)).people, (load_data (save_data dm)).courses,
         (load_data (save_data dm)).terms, (load_data (save_data dm)).accounts,
         (load_data (save_data dm)).program_areas,
         (load_data (save_data dm)).enrollment_roles,
         (load_data (save_data dm)).sections⟩ := rfl
    _ = ⟨dm.people, dm.courses, dm.terms, dm.accounts, dm.program_areas,
         dm.enrollment_roles, dm.sections⟩ := by
          rw [hpeople, hcourses, hterms, haccounts, hpa, hroles, hsections]
    _ = dm := rfl

/-- A populated repository with one record in every collection. -/
def dmRT : DataManager :=
  { people := [("u1", ⟨"Alice", "u1", "Nursing"⟩)]
    courses := [("CS101", ⟨"CS", "Intro", "CS101", "Nursing"⟩)]
    terms := [("Fall 2025", ⟨"2251", "Fall 2025", "FA25"⟩)]
    accounts := [("7", ⟨"7"⟩)]
    program_areas := [("Nursing", ⟨"Nursing"⟩)]
    enrollment_roles := [("Student", "student")]
    sections := [⟨"CS101", some "Fall 2025", "7", "01", "active", "2025-09-01",
                  "2025-12-19", [⟨"u1", "Student", "active"⟩]⟩] }

theorem C4_save_load_round_trip_witness :
    wellFormed dmRT ∧ load_data (save_data dmRT) = dmRT :=
  ⟨by unfold wellFormed; decide,
   C4_save_load_round_trip dmRT (by unfold wellFormed; decide)⟩
